import Mathlib

/-!
Shallow embedding of the drop/claim core of `bot.py` (Telegram card-drop
bot, single file).  The SQLite tables are modelled as Lean lists of rows,
SQL statements as pure functions on those lists, and the two sources of
nondeterminism — `ORDER BY RANDOM()` in the card pick and `random.random()`
in the catch roll — as explicit parameters (a natural-number seed, and a
rational draw `u` with `0 ≤ u < 1`; the Python floats `0.2` and `0.075`
are modelled as the exact rationals `1/5` and `3/40`).

All claim attempts in the bot are serialized behind the global
`CATCH_LOCK`, so a run of concurrent attempts is modelled as a sequence
of atomic `catch_cmd` steps in some interleaving order.
-/

namespace CardBot

/-- Row of the `users` table: `id, username, balance, last_daily`. -/
structure UserRow where
  id : Nat
  username : String
  balance : Int
  last_daily : Option String
  deriving Repr, DecidableEq

/-- Row of the `cards` table:
`id, name, movie, file_id, file_type, rarity, animated`.
Uploads clamp `rarity` to `0..9`; the model keeps it a `Nat`. -/
structure Card where
  id : Nat
  name : String
  movie : String
  file_id : String
  file_type : String
  rarity : Nat
  animated : Nat
  deriving Repr, DecidableEq

/-- Row of the `drops` table:
`id, card_id, chat_id, message_id, dropped_at, caught_by`.
`caught_by = 0` means the drop is still open (the SQL default). -/
structure DropRow where
  id : Nat
  card_id : Nat
  chat_id : Int
  message_id : Nat
  dropped_at : Nat
  caught_by : Nat
  deriving Repr, DecidableEq

/-- Row of the `transactions` table: `user_id, amount, note, at`. -/
structure TxRow where
  user_id : Nat
  amount : Int
  note : String
  ts : Nat
  deriving Repr, DecidableEq

/-- The database state: the tables the drop/claim core reads and writes. -/
structure DB where
  users : List UserRow
  cards : List Card
  drops : List DropRow
  transactions : List TxRow
  deriving Repr, DecidableEq

/-- The transport message handle returned by a successful publish
(`bot.send_photo` / `bot.send_video`). -/
structure Msg where
  message_id : Nat
  deriving Repr, DecidableEq

/-- `SELECT ... ORDER BY <key> DESC LIMIT 1`: the row of `l` with the
largest key (ties resolved to the earliest such row). -/
def maxBy (key : DropRow → Nat) : List DropRow → Option DropRow
  | [] => none
  | d :: ds =>
    match maxBy key ds with
    | none => some d
    | some b => if key d < key b then some b else some d

/-- `SELECT name, rarity FROM cards WHERE id = ?` (first matching row). -/
def find_card (cards : List Card) (cid : Nat) : Option Card :=
  cards.find? (fun c => c.id == cid)

/-- The `caught_by` column of the first `drops` row with the given id, as
read by `SELECT caught_by FROM drops WHERE id = ?`. -/
def caughtOf (db : DB) (dropId : Nat) : Option Nat :=
  (db.drops.find? (fun d => d.id == dropId)).map DropRow.caught_by

/-- The balance of the first `users` row with the given id. -/
def balanceOf (db : DB) (uid : Nat) : Option Int :=
  (db.users.find? (fun u => u.id == uid)).map UserRow.balance

/-- `ensure_user` (bot.py lines 135-141): if no `users` row with this id
exists, insert one with balance 100; otherwise do nothing. -/
def ensure_user (db : DB) (uid : Nat) (username : String) : DB :=
  match db.users.find? (fun u => u.id == uid) with
  | some _ => db
  | none =>
    { db with users := db.users ++ [⟨uid, username, 100, none⟩] }

/-- `change_balance` (bot.py lines 143-146): unconditionally add `amount`
to the user's balance (`UPDATE users SET balance = balance + ?`) and
append a `transactions` row. -/
def change_balance (db : DB) (uid : Nat) (amount : Int) (note : String)
    (ts : Nat) : DB :=
  { db with
    users := db.users.map (fun u =>
      if u.id == uid then { u with balance := u.balance + amount } else u),
    transactions := db.transactions ++ [⟨uid, amount, note, ts⟩] }

/-- `UPDATE drops SET caught_by = ? WHERE id = ?` (bot.py line 554). -/
def setCaught (drops : List DropRow) (dropId actor : Nat) : List DropRow :=
  drops.map (fun d =>
    if d.id == dropId then { d with caught_by := actor } else d)

/-- AUTOINCREMENT primary key for a new `drops` row. -/
def nextDropId (drops : List DropRow) : Nat :=
  (drops.foldl (fun m d => max m d.id) 0) + 1

/-- The card pick of `perform_drop` (bot.py line 435):
`SELECT ... FROM cards ORDER BY RANDOM() LIMIT 1` is a uniformly random
row, modelled as indexing by a seed `r` modulo the table size. -/
def pick_random_card (cards : List Card) (r : Nat) : Option Card :=
  cards.get? (r % cards.length)

/-- `perform_drop` (bot.py lines 432-449): pick a random card, publish it
via the external `send` collaborator, and only then insert the `drops`
row.  A raised `SendError` propagates before the insert, so the database
is returned unchanged together with the error. -/
def perform_drop (db : DB) (chat : Int) (r : Nat)
    (send : Card → Except String Msg) (now : Nat) :
    DB × Except String (Option (Nat × Nat)) :=
  match pick_random_card db.cards r with
  | none => (db, .ok none)
  | some card =>
    match send card with
    | .error e => (db, .error e)
    | .ok msg =>
      ({ db with drops := db.drops ++
          [⟨nextDropId db.drops, card.id, chat, msg.message_id, now, 0⟩] },
       .ok (some (card.id, msg.message_id)))

/-- The `for chat_id in targets` body of `drop_loop` (bot.py lines
477-479): emit one drop per target in order.  An exception raised by one
emission propagates out of the loop, so the remaining targets of the
sweep are not processed. -/
def sweep_targets (db : DB) (targets : List Int)
    (send : Int → Card → Except String Msg) (seeds : Int → Nat)
    (now : Nat) : DB × Except String Unit :=
  match targets with
  | [] => (db, .ok ())
  | chat :: rest =>
    match perform_drop db chat (seeds chat) (send chat) now with
    | (db2, .error e) => (db2, .error e)
    | (db2, .ok _) => sweep_targets db2 rest send seeds now

/-- One iteration of `drop_loop` (bot.py lines 452-486): run the sweep;
on success sleep the configured interval, on any exception fall into the
`except` handler which logs and sleeps 10 seconds.  The returned number
is the sleep duration, witnessing that the loop itself continues. -/
def drop_loop_tick (db : DB) (interval : Nat) (targets : List Int)
    (send : Int → Card → Except String Msg) (seeds : Int → Nat)
    (now : Nat) : DB × Nat :=
  match sweep_targets db targets send seeds now with
  | (db2, .ok _) => (db2, interval)
  | (db2, .error _) => (db2, 10)

/-- The reward computed on a successful catch (bot.py line 557):
`reward = 10 + (9 - rarity) * 5 + rarity * 10`, in Python's exact integer
arithmetic. -/
def reward_for (rarity : Nat) : Int :=
  10 + (9 - (rarity : Int)) * 5 + (rarity : Int) * 10

/-- The success chance of a catch roll (bot.py line 551):
`max(0.2, 1.0 - rarity * 0.075)` with the floats read as exact
rationals. -/
def success_chance (rarity : Nat) : ℚ :=
  max (1 / 5) (1 - (rarity : ℚ) * (3 / 40))

/-- Outcome reported to the actor by `catch_cmd`: the four reply texts of
bot.py lines 535-561.  `won` also records which drop row was claimed. -/
inductive CatchOutcome where
  /-- "You caught ...": the slot transitioned to this actor. -/
  | won (dropId : Nat) (cardName : String) (reward : Int)
  /-- "Too late — someone already caught it." -/
  | tooLate
  /-- "Your attempt failed — someone else might still catch it." -/
  | failed
  /-- "No available drop to catch here." -/
  | noDrop
  /-- "Card not found." -/
  | cardNotFound
  deriving Repr, DecidableEq

/-- The drop id a `won` outcome claimed, if any. -/
def wonSlot : CatchOutcome → Option Nat
  | .won dropId _ _ => some dropId
  | _ => none

/-- Reply-mode lookup (bot.py line 517): `SELECT id, card_id, caught_by
FROM drops WHERE chat_id = ? AND message_id = ? ORDER BY id DESC LIMIT 1`. -/
def lookup_reply (drops : List DropRow) (chat : Int) (mid : Nat) :
    Option DropRow :=
  maxBy DropRow.id
    (drops.filter (fun d => d.chat_id == chat && d.message_id == mid))

/-- Name-mode lookup (bot.py lines 524-526): most recent uncaught drop in
the chat whose card's lowercased name equals the lowercased argument. -/
def lookup_by_name (db : DB) (chat : Int) (name : String) :
    Option DropRow :=
  maxBy DropRow.dropped_at
    (db.drops.filter (fun d =>
      d.chat_id == chat && d.caught_by == 0 &&
      (match find_card db.cards d.card_id with
       | some c => c.name.toLower == name.toLower
       | none => false)))

/-- Implicit-mode lookup (bot.py line 531): most recent uncaught drop in
the chat. -/
def lookup_last_uncaught (drops : List DropRow) (chat : Int) :
    Option DropRow :=
  maxBy DropRow.dropped_at
    (drops.filter (fun d => d.chat_id == chat && d.caught_by == 0))

/-- Target resolution of `catch_cmd` (bot.py lines 513-533): try the
reply-to-drop lookup first; if it yields nothing, fall back to the
name-filtered or plain most-recent-uncaught lookup. -/
def catch_resolve (db : DB) (chat : Int) (reply : Option Nat)
    (argsName : Option String) : Option DropRow :=
  let fromReply : Option DropRow :=
    match reply with
    | some mid => lookup_reply db.drops chat mid
    | none => none
  match fromReply with
  | some t => some t
  | none =>
    match argsName with
    | some name => lookup_by_name db chat name
    | none => lookup_last_uncaught db.drops chat

/-- The critical section of `catch_cmd` under `CATCH_LOCK` (bot.py lines
539-561): re-read `caught_by`, reject if already claimed, look up the
card, roll `u ≤ success_chance`, and on success set `caught_by` and pay
the reward through `change_balance`. -/
def catch_locked (db : DB) (actor : Nat) (t : DropRow) (u : ℚ)
    (now : Nat) : DB × CatchOutcome :=
  if (caughtOf db t.id).getD 0 ≠ 0 then
    (db, .tooLate)
  else
    match find_card db.cards t.card_id with
    | none => (db, .cardNotFound)
    | some card =>
      if u ≤ success_chance card.rarity then
        (change_balance { db with drops := setCaught db.drops t.id actor }
           actor (reward_for card.rarity) ("caught card " ++ card.name) now,
         .won t.id card.name (reward_for card.rarity))
      else
        (db, .failed)

/-- One claim attempt: the actor, their username, the chat, the optional
replied-to message id, the optional `/Catch <name>` argument, the random
draw `u` of this attempt, and the transaction timestamp. -/
structure Attempt where
  actor : Nat
  username : String
  chat : Int
  reply : Option Nat
  argsName : Option String
  u : ℚ
  now : Nat

/-- `catch_cmd` (bot.py lines 507-563): ensure the user exists, resolve
the target drop, then run the locked claim step. -/
def catch_cmd (db : DB) (a : Attempt) : DB × CatchOutcome :=
  match catch_resolve (ensure_user db a.actor a.username) a.chat a.reply
      a.argsName with
  | none => (ensure_user db a.actor a.username, .noDrop)
  | some t =>
    catch_locked (ensure_user db a.actor a.username) a.actor t a.u a.now

/-- A run of claim attempts in the order the global `CATCH_LOCK`
serializes them: returns the final database and the outcome each attempt
received. -/
def run_catches (db : DB) : List Attempt → DB × List CatchOutcome
  | [] => (db, [])
  | a :: rest =>
    let (db1, o) := catch_cmd db a
    let (db2, os) := run_catches db1 rest
    (db2, o :: os)

/-- Number of random seeds below the table size that make
`pick_random_card` return the card with the given id. -/
def selCount (cards : List Card) (cid : Nat) : Nat :=
  (List.range cards.length).countP
    (fun r => ((pick_random_card cards r).map Card.id) == some cid)

/-- Probability that one draw of `pick_random_card` (with a uniform seed)
returns the card with the given id. -/
def selProb (cards : List Card) (cid : Nat) : ℚ :=
  (selCount cards cid : ℚ) / (cards.length : ℚ)

/-- Modelled from the spec (for comparison with `selProb`): the spec's
weighted selection probability `weight_i / Σ weight_j` over the catalog's
weights; the source's `cards` table has no weight column. -/
def specWeightedProb (weights : List ℚ) (i : Nat) : ℚ :=
  (weights.getD i 0) / (weights.foldl (· + ·) 0)

/-! ### Concrete scenario data used by witnesses and counterexamples -/

/-- Rarity-1 card with id 1, the "A" of the weighted-catalog scenario. -/
def cardA : Card := ⟨1, "A", "m", "f1", "photo", 1, 0⟩

/-- Rarity-2 card with id 2, the "B" of the weighted-catalog scenario. -/
def cardB : Card := ⟨2, "B", "m", "f2", "photo", 2, 0⟩

/-- The two-item catalog of the selection-probability scenario. -/
def catalog2 : List Card := [cardA, cardB]

/-- A database with one open drop (id 1, message 100) of `cardA` in
chat 10. -/
def db0 : DB := ⟨[], [cardA], [⟨1, 1, 10, 100, 5, 0⟩], []⟩

/-- A database whose only drop is already claimed by actor 7. -/
def dbClaimed : DB := ⟨[], [cardA], [⟨1, 1, 10, 100, 5, 7⟩], []⟩

/-- A database with a single user (id 7, balance 100) and no drops. -/
def dbUser : DB := ⟨[⟨7, "u7", 100, none⟩], [], [], []⟩

/-- The empty database. -/
def dbEmpty : DB := ⟨[], [], [], []⟩

/-- A database with one card and no drops, for scheduler scenarios. -/
def dbC5 : DB := ⟨[], [cardA], [], []⟩

/-- Implicit-mode attempt by actor 7 whose roll 39/40 exceeds the
success chance 37/40 of a rarity-1 card. -/
def attemptFail : Attempt := ⟨7, "u7", 10, none, none, 39/40, 6⟩

/-- Reply-mode attempt by actor 8 against message 100, with roll 0. -/
def attemptReply : Attempt := ⟨8, "u8", 10, some 100, none, 0, 6⟩

/-- A publish function that always raises `SendError`. -/
def sendFail : Card → Except String Msg := fun _ => .error "SendError"

/-- Per-channel publish: channel 1 raises, every other channel
succeeds. -/
def sendOneBad : Int → Card → Except String Msg :=
  fun chat _ => if chat == 1 then .error "SendError" else .ok ⟨200⟩

/-! ### Helper lemmas about the embedded operations -/

theorem maxBy_mem {key : DropRow → Nat} {l : List DropRow} {b : DropRow}
    (h : maxBy key l = some b) : b ∈ l := by
  induction l with
  | nil => simp [maxBy] at h
  | cons d ds ih =>
    simp only [maxBy] at h
    cases hm : maxBy key ds with
    | none =>
      rw [hm] at h
      simp only [Option.some.injEq] at h
      subst h
      exact List.mem_cons_self _ _
    | some c =>
      rw [hm] at h
      by_cases hk : key d < key c
      · simp only [hk, if_true, Option.some.injEq] at h
        subst h
        exact List.mem_cons_of_mem _ (ih hm)
      · simp only [hk, if_false, Option.some.injEq] at h
        subst h
        exact List.mem_cons_self _ _

theorem maxBy_eq_none {key : DropRow → Nat} {l : List DropRow}
    (h : maxBy key l = none) : l = [] := by
  cases l with
  | nil => rfl
  | cons d ds =>
    exfalso
    simp only [maxBy] at h
    split at h
    · exact Option.noConfusion h
    · split at h
      · exact Option.noConfusion h
      · exact Option.noConfusion h

theorem maxBy_le {key : DropRow → Nat} :
    ∀ {l : List DropRow} {b : DropRow}, maxBy key l = some b →
      ∀ x ∈ l, key x ≤ key b := by
  intro l
  induction l with
  | nil => intro b h; simp [maxBy] at h
  | cons d ds ih =>
    intro b h x hx
    simp only [maxBy] at h
    cases hm : maxBy key ds with
    | none =>
      rw [hm] at h
      simp only [Option.some.injEq] at h
      subst h
      have hds : ds = [] := maxBy_eq_none hm
      subst hds
      rcases List.mem_singleton.mp hx with rfl
      exact le_refl _
    | some c =>
      rw [hm] at h
      by_cases hk : key d < key c
      · simp only [hk, if_true, Option.some.injEq] at h
        subst h
        rcases List.mem_cons.mp hx with rfl | hxs
        · exact le_of_lt hk
        · exact ih hm x hxs
      · simp only [hk, if_false, Option.some.injEq] at h
        subst h
        rcases List.mem_cons.mp hx with rfl | hxs
        · exact le_refl _
        · exact le_trans (ih hm x hxs) (le_of_not_lt hk)

theorem ensure_user_drops (db : DB) (uid : Nat) (un : String) :
    (ensure_user db uid un).drops = db.drops := by
  unfold ensure_user
  cases db.users.find? (fun u => u.id == uid) <;> rfl

theorem ensure_user_cards (db : DB) (uid : Nat) (un : String) :
    (ensure_user db uid un).cards = db.cards := by
  unfold ensure_user
  cases db.users.find? (fun u => u.id == uid) <;> rfl

theorem change_balance_drops (db : DB) (uid : Nat) (a : Int) (n : String)
    (ts : Nat) : (change_balance db uid a n ts).drops = db.drops := rfl

theorem caughtOf_ensure (db : DB) (uid : Nat) (un : String) (x : Nat) :
    caughtOf (ensure_user db uid un) x = caughtOf db x := by
  unfold caughtOf
  rw [ensure_user_drops]

theorem find?_map_id_pres {f : DropRow → DropRow}
    (hf : ∀ d, (f d).id = d.id) (l : List DropRow) (x : Nat) :
    (l.map f).find? (fun d => d.id == x) =
      (l.find? (fun d => d.id == x)).map f := by
  induction l with
  | nil => rfl
  | cons d ds ih =>
    simp only [List.map_cons, List.find?_cons, hf d]
    cases h : (d.id == x) with
    | false => simpa [h] using ih
    | true => simp [h]

theorem find?_setCaught (drops : List DropRow) (s actor x : Nat) :
    (setCaught drops s actor).find? (fun d => d.id == x) =
      (drops.find? (fun d => d.id == x)).map
        (fun d => if d.id == s then { d with caught_by := actor } else d) := by
  apply find?_map_id_pres
  intro d
  by_cases h : (d.id == s) = true <;> simp [h]

theorem caughtOf_update_self (db : DB) (s actor : Nat) (d : DropRow)
    (h : db.drops.find? (fun e => e.id == s) = some d) :
    caughtOf { db with drops := setCaught db.drops s actor } s = some actor := by
  have hid : d.id = s := by simpa using List.find?_some h
  simp [caughtOf, find?_setCaught, h, hid]

theorem caughtOf_update_other (db : DB) (s actor x : Nat) (hx : x ≠ s) :
    caughtOf { db with drops := setCaught db.drops s actor } x =
      caughtOf db x := by
  simp only [caughtOf, find?_setCaught]
  cases h : db.drops.find? (fun e => e.id == x) with
  | none => rfl
  | some d =>
    have hid : d.id = x := by simpa using List.find?_some h
    simp [hid, hx]

theorem mem_find?_isSome {l : List DropRow} {t : DropRow} (h : t ∈ l) :
    ∃ d, l.find? (fun e => e.id == t.id) = some d := by
  cases hf : l.find? (fun e => e.id == t.id) with
  | some d => exact ⟨d, rfl⟩
  | none =>
    exfalso
    have := List.find?_eq_none.mp hf t h
    simp at this

theorem caughtOf_change_balance (db : DB) (uid : Nat) (a : Int) (n : String)
    (ts : Nat) (x : Nat) :
    caughtOf (change_balance db uid a n ts) x = caughtOf db x := rfl

theorem lookup_reply_spec {drops : List DropRow} {chat : Int} {mid : Nat}
    {d : DropRow} (h : lookup_reply drops chat mid = some d) :
    d ∈ drops ∧ d.chat_id = chat ∧ d.message_id = mid := by
  unfold lookup_reply at h
  have hp := List.mem_filter.mp (maxBy_mem h)
  have hc : d.chat_id = chat ∧ d.message_id = mid := by
    have h2 := hp.2
    simp only [Bool.and_eq_true, beq_iff_eq] at h2
    exact h2
  exact ⟨hp.1, hc.1, hc.2⟩

theorem lookup_last_uncaught_spec {drops : List DropRow} {chat : Int}
    {d : DropRow} (h : lookup_last_uncaught drops chat = some d) :
    d ∈ drops ∧ d.chat_id = chat ∧ d.caught_by = 0 ∧
      ∀ d' ∈ drops, d'.chat_id = chat → d'.caught_by = 0 →
        d'.dropped_at ≤ d.dropped_at := by
  unfold lookup_last_uncaught at h
  have hp := List.mem_filter.mp (maxBy_mem h)
  have hc : d.chat_id = chat ∧ d.caught_by = 0 := by
    have h2 := hp.2
    simp only [Bool.and_eq_true, beq_iff_eq] at h2
    exact h2
  refine ⟨hp.1, hc.1, hc.2, ?_⟩
  intro d' hd' hchat hcb
  exact maxBy_le h d' (List.mem_filter.mpr ⟨hd', by simp [hchat, hcb]⟩)

theorem lookup_by_name_spec {db : DB} {chat : Int} {name : String}
    {d : DropRow} (h : lookup_by_name db chat name = some d) :
    d ∈ db.drops ∧ d.chat_id = chat ∧ d.caught_by = 0 ∧
      (∃ c, find_card db.cards d.card_id = some c ∧
        c.name.toLower = name.toLower) ∧
      ∀ e ∈ db.drops, e.chat_id = chat → e.caught_by = 0 →
        (∃ c, find_card db.cards e.card_id = some c ∧
          c.name.toLower = name.toLower) →
        e.dropped_at ≤ d.dropped_at := by
  unfold lookup_by_name at h
  have hp := List.mem_filter.mp (maxBy_mem h)
  have h2 := hp.2
  simp only [Bool.and_eq_true, beq_iff_eq] at h2
  obtain ⟨⟨hchat, hcb⟩, hmatch⟩ := h2
  refine ⟨hp.1, hchat, hcb, ?_, ?_⟩
  · cases hf : find_card db.cards d.card_id with
    | none =>
      rw [hf] at hmatch
      simp at hmatch
    | some c =>
      rw [hf] at hmatch
      simp only [beq_iff_eq] at hmatch
      exact ⟨c, rfl, hmatch⟩
  · intro e he hech hecb hex
    obtain ⟨c, hfc, hcn⟩ := hex
    apply maxBy_le h e
    apply List.mem_filter.mpr
    refine ⟨he, ?_⟩
    simp only [Bool.and_eq_true, beq_iff_eq]
    refine ⟨⟨hech, hecb⟩, ?_⟩
    rw [hfc]
    simp [hcn]

theorem catch_resolve_mem {db : DB} {chat : Int} {reply : Option Nat}
    {argsName : Option String} {t : DropRow}
    (h : catch_resolve db chat reply argsName = some t) : t ∈ db.drops := by
  unfold catch_resolve at h
  rcases reply with _ | mid
  · simp only at h
    rcases argsName with _ | name
    · exact (lookup_last_uncaught_spec h).1
    · exact (lookup_by_name_spec h).1
  · simp only at h
    cases hr : lookup_reply db.drops chat mid with
    | none =>
      rw [hr] at h
      rcases argsName with _ | name
      · exact (lookup_last_uncaught_spec h).1
      · exact (lookup_by_name_spec h).1
    | some d =>
      rw [hr] at h
      simp only [Option.some.injEq] at h
      subst h
      exact (lookup_reply_spec hr).1

theorem catch_locked_cases (db : DB) (actor : Nat) (t : DropRow) (u : ℚ)
    (now : Nat) :
    ((caughtOf db t.id).getD 0 ≠ 0 ∧
        catch_locked db actor t u now = (db, .tooLate)) ∨
    ((caughtOf db t.id).getD 0 = 0 ∧
      (catch_locked db actor t u now = (db, .cardNotFound) ∨
       catch_locked db actor t u now = (db, .failed) ∨
       ∃ card, find_card db.cards t.card_id = some card ∧
         u ≤ success_chance card.rarity ∧
         catch_locked db actor t u now =
           (change_balance { db with drops := setCaught db.drops t.id actor }
              actor (reward_for card.rarity) ("caught card " ++ card.name)
              now,
            .won t.id card.name (reward_for card.rarity)))) := by
  by_cases hcb : (caughtOf db t.id).getD 0 ≠ 0
  · exact Or.inl ⟨hcb, by unfold catch_locked; rw [if_pos hcb]⟩
  · push_neg at hcb
    have hcond : ¬((caughtOf db t.id).getD 0 ≠ 0) := by simp [hcb]
    cases hf : find_card db.cards t.card_id with
    | none =>
      refine Or.inr ⟨hcb, Or.inl ?_⟩
      unfold catch_locked
      rw [if_neg hcond, hf]
    | some card =>
      by_cases hu : u ≤ success_chance card.rarity
      · refine Or.inr ⟨hcb, Or.inr (Or.inr ⟨card, rfl, hu, ?_⟩)⟩
        unfold catch_locked
        rw [if_neg hcond, hf]
        simp [hu]
      · refine Or.inr ⟨hcb, Or.inr (Or.inl ?_)⟩
        unfold catch_locked
        rw [if_neg hcond, hf]
        simp [hu]

theorem stepWon {db : DB} {a : Attempt} {db2 : DB} {o : CatchOutcome}
    {s : Nat} (h : catch_cmd db a = (db2, o)) (hw : wonSlot o = some s) :
    caughtOf db s = some 0 ∧ caughtOf db2 s = some a.actor := by
  unfold catch_cmd at h
  split at h
  next hres =>
    injection h with h1 h2
    subst h2
    simp [wonSlot] at hw
  next t hres =>
    rcases catch_locked_cases (ensure_user db a.actor a.username) a.actor t
        a.u a.now with ⟨hcb, heq⟩ | ⟨hcb, hcase⟩
    · rw [heq] at h
      injection h with h1 h2
      subst h2
      simp [wonSlot] at hw
    · rcases hcase with heq | heq | ⟨card, hf, hu, heq⟩
      · rw [heq] at h
        injection h with h1 h2
        subst h2
        simp [wonSlot] at hw
      · rw [heq] at h
        injection h with h1 h2
        subst h2
        simp [wonSlot] at hw
      · rw [heq] at h
        injection h with h1 h2
        subst h1
        subst h2
        simp only [wonSlot, Option.some.injEq] at hw
        subst hw
        have hmem : t ∈ (ensure_user db a.actor a.username).drops :=
          catch_resolve_mem hres
        obtain ⟨d, hd⟩ := mem_find?_isSome hmem
        have hco : caughtOf (ensure_user db a.actor a.username) t.id =
            some d.caught_by := by
          simp [caughtOf, hd]
        constructor
        · rw [← caughtOf_ensure db a.actor a.username t.id, hco]
          rw [hco] at hcb
          simp only [Option.getD_some] at hcb
          rw [hcb]
        · rw [caughtOf_change_balance]
          exact caughtOf_update_self _ _ _ _ hd

theorem stepPreserve {db : DB} {a : Attempt} {db2 : DB} {o : CatchOutcome}
    (h : catch_cmd db a = (db2, o)) {s v : Nat}
    (hv : caughtOf db s = some v) (hv0 : v ≠ 0) :
    caughtOf db2 s = some v := by
  have hv1 : caughtOf (ensure_user db a.actor a.username) s = some v := by
    rw [caughtOf_ensure]; exact hv
  unfold catch_cmd at h
  split at h
  next hres =>
    injection h with h1 h2
    subst h1
    exact hv1
  next t hres =>
    rcases catch_locked_cases (ensure_user db a.actor a.username) a.actor t
        a.u a.now with ⟨hcb, heq⟩ | ⟨hcb, hcase⟩
    · rw [heq] at h
      injection h with h1 h2
      subst h1
      exact hv1
    · rcases hcase with heq | heq | ⟨card, hf, hu, heq⟩
      · rw [heq] at h
        injection h with h1 h2
        subst h1
        exact hv1
      · rw [heq] at h
        injection h with h1 h2
        subst h1
        exact hv1
      · rw [heq] at h
        injection h with h1 h2
        subst h1
        by_cases hts : s = t.id
        · subst hts
          rw [hv1] at hcb
          simp only [Option.getD_some] at hcb
          exact absurd hcb hv0
        · rw [caughtOf_change_balance, caughtOf_update_other _ _ _ _ hts]
          exact hv1

theorem stepNoWinClaimed {db : DB} {a : Attempt} {db2 : DB}
    {o : CatchOutcome} (h : catch_cmd db a = (db2, o)) {s v : Nat}
    (hv : caughtOf db s = some v) (hv0 : v ≠ 0) :
    wonSlot o ≠ some s := by
  intro hw
  have h0 := (stepWon h hw).1
  rw [hv] at h0
  simp only [Option.some.injEq] at h0
  exact hv0 h0

theorem run_catches_cons (db : DB) (a : Attempt) (rest : List Attempt) :
    run_catches db (a :: rest) =
      ((run_catches (catch_cmd db a).1 rest).1,
        (catch_cmd db a).2 :: (run_catches (catch_cmd db a).1 rest).2) := by
  simp only [run_catches]

theorem runNoWinClaimed : ∀ (as : List Attempt) (db : DB) (s v : Nat),
    caughtOf db s = some v → v ≠ 0 →
    ((run_catches db as).2.countP (fun o => wonSlot o == some s)) = 0 := by
  intro as
  induction as with
  | nil => intro db s v hv hv0; rfl
  | cons a rest ih =>
    intro db s v hv hv0
    rw [run_catches_cons]
    rcases hc : catch_cmd db a with ⟨db1, o⟩
    have hpres : caughtOf db1 s = some v := stepPreserve hc hv hv0
    have hrest := ih db1 s v hpres hv0
    have hno : wonSlot o ≠ some s := stepNoWinClaimed hc hv hv0
    have hb : (wonSlot o == some s) = false := by simpa using hno
    simp [hc, List.countP_cons, hrest, hb]

theorem atMostOneWin : ∀ (as : List Attempt) (db : DB) (s : Nat),
    (∀ a ∈ as, a.actor ≠ 0) →
    ((run_catches db as).2.countP (fun o => wonSlot o == some s)) ≤ 1 := by
  intro as
  induction as with
  | nil => intro db s h; simp [run_catches]
  | cons a rest ih =>
    intro db s hact
    rw [run_catches_cons]
    rcases hc : catch_cmd db a with ⟨db1, o⟩
    by_cases hw : wonSlot o = some s
    · have hwon := stepWon hc hw
      have hrest := runNoWinClaimed rest db1 s a.actor hwon.2
        (hact a (List.mem_cons_self a rest))
      have hb : (wonSlot o == some s) = true := by simpa using hw
      simp [hc, List.countP_cons, hrest, hb]
    · have hb : (wonSlot o == some s) = false := by simpa using hw
      have hrest := ih db1 s (fun a' ha' => hact a' (List.mem_cons_of_mem _ ha'))
      simpa [hc, List.countP_cons, hb] using hrest

theorem find?_map_keep {α : Type} {f : α → α} {p : α → Bool}
    (hf : ∀ x, p (f x) = p x) (l : List α) :
    (l.map f).find? p = (l.find? p).map f := by
  induction l with
  | nil => rfl
  | cons d ds ih =>
    simp only [List.map_cons, List.find?_cons, hf d]
    cases h : p d with
    | false => simpa [h] using ih
    | true => simp [h]

theorem find?_append_none {α : Type} {p : α → Bool} {l1 : List α}
    (h : l1.find? p = none) (l2 : List α) :
    (l1 ++ l2).find? p = l2.find? p := by
  induction l1 with
  | nil => rfl
  | cons a l ih =>
    cases hp : p a with
    | true =>
      exfalso
      rw [List.find?_cons_of_pos _ hp] at h
      exact Option.noConfusion h
    | false =>
      have hp2 : ¬ p a = true := by simp [hp]
      rw [List.find?_cons_of_neg _ hp2] at h
      rw [List.cons_append, List.find?_cons_of_neg _ hp2]
      exact ih h

theorem balanceOf_change_balance (db : DB) (uid : Nat) (amt : Int)
    (n : String) (ts : Nat) :
    balanceOf (change_balance db uid amt n ts) uid =
      (balanceOf db uid).map (· + amt) := by
  simp only [balanceOf, change_balance]
  rw [find?_map_keep (fun x => by by_cases hx : (x.id == uid) = true <;> simp [hx])]
  cases h : db.users.find? (fun x => x.id == uid) with
  | none => rfl
  | some w =>
    have hid : w.id = uid := by simpa using List.find?_some h
    simp [hid]

theorem catch_locked_claimed {db : DB} {actor : Nat} {t : DropRow} {u : ℚ}
    {now : Nat} {v : Nat} (hv : caughtOf db t.id = some v) (hv0 : v ≠ 0) :
    catch_locked db actor t u now = (db, .tooLate) := by
  unfold catch_locked
  rw [if_pos (by simp [hv, hv0])]

theorem catch_locked_failed {db : DB} {actor : Nat} {t : DropRow} {u : ℚ}
    {now : Nat} {card : Card}
    (hopen : (caughtOf db t.id).getD 0 = 0)
    (hcard : find_card db.cards t.card_id = some card)
    (hu : ¬ u ≤ success_chance card.rarity) :
    catch_locked db actor t u now = (db, .failed) := by
  unfold catch_locked
  rw [if_neg (by simp [hopen]), hcard]
  simp [hu]

theorem catch_locked_win {db : DB} {actor : Nat} {t : DropRow} {u : ℚ}
    {now : Nat} {card : Card}
    (hopen : (caughtOf db t.id).getD 0 = 0)
    (hcard : find_card db.cards t.card_id = some card)
    (hu : u ≤ success_chance card.rarity) :
    catch_locked db actor t u now =
      (change_balance { db with drops := setCaught db.drops t.id actor }
         actor (reward_for card.rarity) ("caught card " ++ card.name) now,
       .won t.id card.name (reward_for card.rarity)) := by
  unfold catch_locked
  rw [if_neg (by simp [hopen]), hcard]
  simp [hu]

theorem catch_cmd_eq_locked {db : DB} {a : Attempt} {t : DropRow}
    (hres : catch_resolve (ensure_user db a.actor a.username) a.chat a.reply
      a.argsName = some t) :
    catch_cmd db a =
      catch_locked (ensure_user db a.actor a.username) a.actor t a.u a.now := by
  unfold catch_cmd
  rw [hres]

theorem catch_cmd_eq_noDrop {db : DB} {a : Attempt}
    (hres : catch_resolve (ensure_user db a.actor a.username) a.chat a.reply
      a.argsName = none) :
    catch_cmd db a = (ensure_user db a.actor a.username, .noDrop) := by
  unfold catch_cmd
  rw [hres]

/-! ### An interleaving-faithful model of concurrent claims

In the source the target lookup runs outside `CATCH_LOCK`, so under
concurrency an attempt may enter the lock holding a stale target row.
`LockedAttempt` carries an arbitrary pre-resolved target; `run_locked` is
the sequence of critical sections in the serialization order the lock
enforces.  Only the locked re-read of `caught_by` guards the win, exactly
as in the source. -/

/-- One claim attempt as it enters `CATCH_LOCK`: the actor and the target
row it resolved (possibly stale by now), with its random draw. -/
structure LockedAttempt where
  actor : Nat
  target : DropRow
  u : ℚ
  now : Nat

/-- The serialized sequence of `CATCH_LOCK` critical sections. -/
def run_locked (db : DB) : List LockedAttempt → DB × List CatchOutcome
  | [] => (db, [])
  | a :: rest =>
    let (db1, o) := catch_locked db a.actor a.target a.u a.now
    let (db2, os) := run_locked db1 rest
    (db2, o :: os)

theorem run_locked_cons (db : DB) (a : LockedAttempt)
    (rest : List LockedAttempt) :
    run_locked db (a :: rest) =
      ((run_locked (catch_locked db a.actor a.target a.u a.now).1 rest).1,
        (catch_locked db a.actor a.target a.u a.now).2 ::
          (run_locked (catch_locked db a.actor a.target a.u a.now).1 rest).2) := by
  simp only [run_locked]

theorem locked_preserves_find (db : DB) (actor : Nat) (t : DropRow) (u : ℚ)
    (now : Nat) (x : Nat) :
    ((catch_locked db actor t u now).1.drops.find? (fun e => e.id == x)).isSome =
      (db.drops.find? (fun e => e.id == x)).isSome := by
  rcases catch_locked_cases db actor t u now with
    ⟨hcb, heq⟩ | ⟨hcb, heq | heq | ⟨card, hf, hu, heq⟩⟩
  · rw [heq]
  · rw [heq]
  · rw [heq]
  · rw [heq]
    show ((setCaught db.drops t.id actor).find? (fun e => e.id == x)).isSome = _
    rw [find?_setCaught]
    cases db.drops.find? (fun e => e.id == x) <;> rfl

theorem lockedStepWon {db : DB} {actor : Nat} {t : DropRow} {u : ℚ}
    {now : Nat} {db2 : DB} {o : CatchOutcome} {s : Nat}
    (h : catch_locked db actor t u now = (db2, o)) (hw : wonSlot o = some s)
    (hex : (db.drops.find? (fun e => e.id == s)).isSome) :
    caughtOf db s = some 0 ∧ caughtOf db2 s = some actor := by
  rcases catch_locked_cases db actor t u now with
    ⟨hcb, heq⟩ | ⟨hcb, heq | heq | ⟨card, hf, hu, heq⟩⟩
  · rw [heq] at h
    injection h with h1 h2
    subst h2
    simp [wonSlot] at hw
  · rw [heq] at h
    injection h with h1 h2
    subst h2
    simp [wonSlot] at hw
  · rw [heq] at h
    injection h with h1 h2
    subst h2
    simp [wonSlot] at hw
  · rw [heq] at h
    injection h with h1 h2
    subst h1
    subst h2
    simp only [wonSlot, Option.some.injEq] at hw
    subst hw
    obtain ⟨d, hd⟩ := Option.isSome_iff_exists.mp hex
    have hco : caughtOf db t.id = some d.caught_by := by
      simp [caughtOf, hd]
    rw [hco] at hcb
    simp only [Option.getD_some] at hcb
    constructor
    · rw [hco, hcb]
    · rw [caughtOf_change_balance]
      exact caughtOf_update_self _ _ _ _ hd

theorem lockedStepPreserve {db : DB} {actor : Nat} {t : DropRow} {u : ℚ}
    {now : Nat} {db2 : DB} {o : CatchOutcome}
    (h : catch_locked db actor t u now = (db2, o)) {s v : Nat}
    (hv : caughtOf db s = some v) (hv0 : v ≠ 0) :
    caughtOf db2 s = some v := by
  rcases catch_locked_cases db actor t u now with
    ⟨hcb, heq⟩ | ⟨hcb, heq | heq | ⟨card, hf, hu, heq⟩⟩
  · rw [heq] at h
    injection h with h1 h2
    subst h1
    exact hv
  · rw [heq] at h
    injection h with h1 h2
    subst h1
    exact hv
  · rw [heq] at h
    injection h with h1 h2
    subst h1
    exact hv
  · rw [heq] at h
    injection h with h1 h2
    subst h1
    by_cases hts : s = t.id
    · subst hts
      rw [hv] at hcb
      simp only [Option.getD_some] at hcb
      exact absurd hcb hv0
    · rw [caughtOf_change_balance, caughtOf_update_other _ _ _ _ hts]
      exact hv

theorem runLockedNoWin : ∀ (as : List LockedAttempt) (db : DB) (s v : Nat),
    caughtOf db s = some v → v ≠ 0 →
    ((run_locked db as).2.countP (fun o => wonSlot o == some s)) = 0 := by
  intro as
  induction as with
  | nil => intro db s v hv hv0; rfl
  | cons a rest ih =>
    intro db s v hv hv0
    rw [run_locked_cons]
    rcases hc : catch_locked db a.actor a.target a.u a.now with ⟨db1, o⟩
    have hpres : caughtOf db1 s = some v := lockedStepPreserve hc hv hv0
    have hrest := ih db1 s v hpres hv0
    have hno : wonSlot o ≠ some s := by
      intro hw
      have h0 := (lockedStepWon hc hw ?_).1
      · rw [hv] at h0
        simp only [Option.some.injEq] at h0
        exact hv0 h0
      · unfold caughtOf at hv
        cases hfd : db.drops.find? (fun e => e.id == s) with
        | none => rw [hfd] at hv; exact Option.noConfusion hv
        | some d => simp [hfd]
    have hb : (wonSlot o == some s) = false := by simpa using hno
    simp [hc, List.countP_cons, hrest, hb]

theorem atMostOneWinLocked : ∀ (as : List LockedAttempt) (db : DB) (s : Nat),
    (∀ a ∈ as, a.actor ≠ 0) →
    (db.drops.find? (fun e => e.id == s)).isSome →
    ((run_locked db as).2.countP (fun o => wonSlot o == some s)) ≤ 1 := by
  intro as
  induction as with
  | nil => intro db s h hex; simp [run_locked]
  | cons a rest ih =>
    intro db s hact hex
    rw [run_locked_cons]
    rcases hc : catch_locked db a.actor a.target a.u a.now with ⟨db1, o⟩
    by_cases hw : wonSlot o = some s
    · have hwon := lockedStepWon hc hw hex
      have hrest := runLockedNoWin rest db1 s a.actor hwon.2
        (hact a (List.mem_cons_self a rest))
      have hb : (wonSlot o == some s) = true := by simpa using hw
      simp [hc, List.countP_cons, hrest, hb]
    · have hb : (wonSlot o == some s) = false := by simpa using hw
      have hex1 : (db1.drops.find? (fun e => e.id == s)).isSome := by
        have := locked_preserves_find db a.actor a.target a.u a.now s
        rw [hc] at this
        rw [this]
        exact hex
      have hrest := ih db1 s
        (fun a2 ha2 => hact a2 (List.mem_cons_of_mem _ ha2)) hex1
      simpa [hc, List.countP_cons, hb] using hrest

theorem perform_drop_cases (db : DB) (chat : Int) (r : Nat)
    (send : Card → Except String Msg) (now : Nat) :
    (pick_random_card db.cards r = none ∧
        perform_drop db chat r send now = (db, .ok none)) ∨
    (∃ card, pick_random_card db.cards r = some card ∧
      ((∃ e, send card = .error e ∧
          perform_drop db chat r send now = (db, .error e)) ∨
       (∃ msg, send card = .ok msg ∧
          perform_drop db chat r send now =
            ({ db with drops := db.drops ++
                [⟨nextDropId db.drops, card.id, chat, msg.message_id, now, 0⟩] },
             .ok (some (card.id, msg.message_id)))))) := by
  cases hp : pick_random_card db.cards r with
  | none => exact Or.inl ⟨rfl, by unfold perform_drop; rw [hp]⟩
  | some card =>
    cases hs : send card with
    | error e =>
      exact Or.inr ⟨card, rfl, Or.inl ⟨e, hs, by
        unfold perform_drop; rw [hp]; simp [hs]⟩⟩
    | ok msg =>
      exact Or.inr ⟨card, rfl, Or.inr ⟨msg, hs, by
        unfold perform_drop; rw [hp]; simp [hs]⟩⟩

theorem perform_drop_error_eq {db : DB} {chat : Int} {r : Nat}
    {send : Card → Except String Msg} {now : Nat} {e : String}
    (h : (perform_drop db chat r send now).2 = .error e) :
    perform_drop db chat r send now = (db, .error e) := by
  rcases perform_drop_cases db chat r send now with
    ⟨hp, heq⟩ | ⟨card, hp, ⟨e2, hs, heq⟩ | ⟨msg, hs, heq⟩⟩
  · rw [heq] at h
    exact absurd h (by simp)
  · rw [heq] at h
    simp only at h
    injection h with h2
    subst h2
    exact heq
  · rw [heq] at h
    exact absurd h (by simp)

theorem success_chance_pos (r : Nat) : 0 < success_chance r :=
  lt_of_lt_of_le (by norm_num) (le_max_left _ _)

theorem success_chance_lt_one {r : Nat} (hr : 1 ≤ r) :
    success_chance r < 1 := by
  unfold success_chance
  apply max_lt
  · norm_num
  · have h1 : (1 : ℚ) ≤ (r : ℚ) := by exact_mod_cast hr
    nlinarith

theorem success_chance_zero : success_chance 0 = 1 := by
  unfold success_chance
  norm_num

theorem countP_range_unique (n i : Nat) (p : Nat → Bool) (hi : i < n)
    (hp : ∀ r, r < n → (p r = true ↔ r = i)) :
    (List.range n).countP p = 1 := by
  induction n with
  | zero => omega
  | succ m ih =>
    rw [List.range_succ, List.countP_append]
    by_cases him : i = m
    · subst him
      have hm : p i = true := (hp i (Nat.lt_succ_self i)).mpr rfl
      have h0 : (List.range i).countP p = 0 := by
        apply List.countP_eq_zero.mpr
        intro r hr hpr
        have hri : r < i := List.mem_range.mp hr
        have := (hp r (by omega)).mp hpr
        omega
      rw [h0]
      simp [List.countP_cons, hm]
    · have hm : ¬ p m = true := by
        intro hc
        have := (hp m (Nat.lt_succ_self m)).mp hc
        omega
      have ihm := ih (by omega) (fun r hr => hp r (by omega))
      rw [ihm]
      simp [List.countP_cons, hm]

theorem pick_random_card_lt {cards : List Card} {r : Nat}
    (hr : r < cards.length) :
    pick_random_card cards r = some (cards.get ⟨r, hr⟩) := by
  unfold pick_random_card
  rw [Nat.mod_eq_of_lt hr]
  simp [List.get?_eq_getElem?, List.getElem?_eq_getElem hr]

/-! ### Claim theorems -/

/-- C6 (confirmed): when the external publish step raises, `perform_drop`
returns the database unchanged — in particular no `drops` row is ever
persisted in the open state for a failed publish. -/
theorem C6_failed_publish_no_slot (db : DB) (chat : Int) (r : Nat)
    (send : Card → Except String Msg) (now : Nat) (e : String)
    (h : (perform_drop db chat r send now).2 = .error e) :
    (perform_drop db chat r send now).1 = db := by
  rw [perform_drop_error_eq h]

/-- Witness for C6 at a concrete failing publish. -/
theorem C6_failed_publish_no_slot_witness :
    (perform_drop db0 10 0 sendFail 6).2 = .error "SendError" ∧
    (perform_drop db0 10 0 sendFail 6).1 = db0 :=
  ⟨rfl, C6_failed_publish_no_slot db0 10 0 sendFail 6 "SendError" rfl⟩

/-- C5 (corrected): a failure of one channel's emission does NOT leave the
rest of the sweep running — the exception propagates out of the
per-target loop, so `sweep_targets` returns immediately with the error
and the remaining channels are skipped; the error is contained only at
the whole-sweep level, where `drop_loop` logs it and sleeps 10 seconds
(the loop itself survives).  There is no per-channel schedule to
advance. -/
theorem C5_sweep_aborts (db : DB) (t : Int) (rest : List Int)
    (send : Int → Card → Except String Msg) (seeds : Int → Nat)
    (now : Nat) (interval : Nat) (e : String)
    (h : (perform_drop db t (seeds t) (send t) now).2 = .error e) :
    sweep_targets db (t :: rest) send seeds now = (db, .error e) ∧
    drop_loop_tick db interval (t :: rest) send seeds now = (db, 10) := by
  have hpd := perform_drop_error_eq h
  have hsw : sweep_targets db (t :: rest) send seeds now = (db, .error e) := by
    unfold sweep_targets
    rw [hpd]
  exact ⟨hsw, by unfold drop_loop_tick; rw [hsw]⟩

/-- Witness for C5 at a concrete failing first channel. -/
theorem C5_sweep_aborts_witness :
    (perform_drop dbC5 1 0 (sendOneBad 1) 6).2 = .error "SendError" ∧
    (sweep_targets dbC5 [1, 2] sendOneBad (fun _ => 0) 6 =
        (dbC5, .error "SendError") ∧
      drop_loop_tick dbC5 300 [1, 2] sendOneBad (fun _ => 0) 6 = (dbC5, 10)) :=
  ⟨rfl, C5_sweep_aborts dbC5 1 [2] sendOneBad (fun _ => 0) 6 300 "SendError" rfl⟩

/-- C5 counterexample: with targets [1, 2] and channel 1's publish
failing, the sweep aborts with the error and channel 2 — whose publish
would have succeeded — gets no drop in that sweep, refuting "a failure of
one channel's emission does not block or skip the remaining channels". -/
theorem C5_counterexample :
    sendOneBad 2 cardA = .ok ⟨200⟩ ∧
    (sweep_targets dbC5 [1, 2] sendOneBad (fun _ => 0) 6).2 =
      .error "SendError" ∧
    (sweep_targets dbC5 [1, 2] sendOneBad (fun _ => 0) 6).1.drops = [] :=
  ⟨rfl, rfl, rfl⟩

/-- C8 (confirmed): the catch reward `10 + (9 - rarity) * 5 + rarity * 10`
is a pure function of the rarity tier, monotonically non-decreasing in
rarity, and always a non-negative credit. -/
theorem C8_reward_monotone_nonneg :
    (∀ r1 r2 : Nat, r1 ≤ r2 → reward_for r1 ≤ reward_for r2) ∧
    (∀ r : Nat, 0 ≤ reward_for r) := by
  constructor
  · intro r1 r2 h
    unfold reward_for
    have hc : (r1 : Int) ≤ (r2 : Int) := by exact_mod_cast h
    linarith
  · intro r
    unfold reward_for
    have hc : (0 : Int) ≤ (r : Int) := Int.natCast_nonneg r
    linarith

/-- Witness for C8 at concrete rarities. -/
theorem C8_reward_monotone_nonneg_witness :
    reward_for 2 ≤ reward_for 5 ∧ 0 ≤ reward_for 3 :=
  ⟨C8_reward_monotone_nonneg.1 2 5 (by decide),
   C8_reward_monotone_nonneg.2 3⟩

/-- C10 (confirmed): `ensure_user` creates a missing account with an
initial balance of 100 coins (not the schema default 0) and leaves an
existing account completely untouched.  It runs at the start of start,
catch, balance, daily, slots, wheel and marry. -/
theorem C10_ensure_user_initial_balance (db : DB) (uid : Nat) (un : String) :
    (db.users.find? (fun x => x.id == uid) = none →
      balanceOf (ensure_user db uid un) uid = some 100) ∧
    (∀ w, db.users.find? (fun x => x.id == uid) = some w →
      ensure_user db uid un = db) := by
  constructor
  · intro h
    unfold ensure_user
    rw [h]
    show ((db.users ++ ([⟨uid, un, 100, none⟩] : List UserRow)).find?
      (fun x => x.id == uid)).map UserRow.balance = some (100 : Int)
    rw [find?_append_none h]
    simp
  · intro w h
    unfold ensure_user
    rw [h]

/-- Witness for C10: a fresh account gets balance 100; an existing one is
untouched. -/
theorem C10_ensure_user_initial_balance_witness :
    (dbEmpty.users.find? (fun x => x.id == 7) = none ∧
      balanceOf (ensure_user dbEmpty 7 "u7") 7 = some 100) ∧
    (dbUser.users.find? (fun x => x.id == 7) = some ⟨7, "u7", 100, none⟩ ∧
      ensure_user dbUser 7 "u7" = dbUser) :=
  ⟨⟨by decide, (C10_ensure_user_initial_balance dbEmpty 7 "u7").1 (by decide)⟩,
   ⟨by decide, (C10_ensure_user_initial_balance dbUser 7 "u7").2
      ⟨7, "u7", 100, none⟩ (by decide)⟩⟩

/-- C2 (corrected): the card pick of `perform_drop` is `ORDER BY RANDOM()
LIMIT 1`, i.e. uniform over the `cards` table — each item is selected
with probability `1 / n` irrespective of any weight (the table has no
weight column), not `weight_i / Σ weight_j`. -/
theorem C2_selection_uniform (cards : List Card) (i : Nat)
    (hi : i < cards.length) (hnd : (cards.map Card.id).Nodup) :
    selProb cards (cards.get ⟨i, hi⟩).id = 1 / (cards.length : ℚ) := by
  have hcount : selCount cards (cards.get ⟨i, hi⟩).id = 1 := by
    unfold selCount
    apply countP_range_unique cards.length i _ hi
    intro r hr
    rw [pick_random_card_lt hr]
    constructor
    · intro hpr
      have hpr2 : (cards.get ⟨r, hr⟩).id = (cards.get ⟨i, hi⟩).id := by
        simpa using hpr
      have hr2 : r < (cards.map Card.id).length := by simpa using hr
      have hi2 : i < (cards.map Card.id).length := by simpa using hi
      have hg : (cards.map Card.id).get ⟨r, hr2⟩ =
          (cards.map Card.id).get ⟨i, hi2⟩ := by
        simp only [List.get_eq_getElem, List.getElem_map]
        simpa using hpr2
      have hfin := (List.Nodup.get_inj_iff hnd).mp hg
      simpa using hfin
    · rintro rfl
      simp
  unfold selProb
  rw [hcount]
  norm_num

/-- Witness for C2's uniform-selection theorem on the two-item catalog. -/
theorem C2_selection_uniform_witness :
    0 < catalog2.length ∧ (catalog2.map Card.id).Nodup ∧
    selProb catalog2 (catalog2.get ⟨0, by decide⟩).id =
      1 / (catalog2.length : ℚ) :=
  ⟨by decide, by decide, C2_selection_uniform catalog2 0 (by decide) (by decide)⟩

/-- C2 counterexample: on the catalog `[A (weight 500), B (weight 1)]`,
the code selects A with probability 1/2 (uniform), not the spec's
weighted 500/501, and in particular not with probability greater than
95 percent. -/
theorem C2_counterexample :
    selProb catalog2 1 = 1 / 2 ∧
    specWeightedProb [500, 1] 0 = 500 / 501 ∧
    ¬ (95 / 100 < selProb catalog2 1) := by
  have hc : selCount catalog2 1 = 1 := by decide
  have hl : catalog2.length = 2 := rfl
  have hval : selProb catalog2 1 = 1 / 2 := by
    unfold selProb
    rw [hc, hl]
    norm_num
  refine ⟨hval, ?_, ?_⟩
  · unfold specWeightedProb
    norm_num [List.getD, List.foldl_cons, List.foldl_nil]
  · rw [hval]
    norm_num

/-- C1 (corrected): at most one claim attempt per drop slot receives the
`Won` outcome — both for whole serialized `catch_cmd` commands and for
arbitrary lock-serialized interleavings whose targets may be stale — but
the claim's "exactly one Won / no zero-wins" part is false on the code
(see the counterexample): an attempt can fail the random roll, leaving
the slot open with zero winners, and such an attempt is reported as a
failed roll, not as `Lost`. -/
theorem C1_at_most_one_win :
    (∀ (db : DB) (as : List Attempt) (s : Nat), (∀ a ∈ as, a.actor ≠ 0) →
      ((run_catches db as).2.countP (fun o => wonSlot o == some s)) ≤ 1) ∧
    (∀ (db : DB) (as : List LockedAttempt) (s : Nat),
      (∀ a ∈ as, a.actor ≠ 0) →
      (db.drops.find? (fun e => e.id == s)).isSome →
      ((run_locked db as).2.countP (fun o => wonSlot o == some s)) ≤ 1) :=
  ⟨fun db as s h => atMostOneWin as db s h,
   fun db as s h hex => atMostOneWinLocked as db s h hex⟩

/-- Witness for C1's at-most-one-win theorem on concrete runs. -/
theorem C1_at_most_one_win_witness :
    ((∀ a ∈ [attemptFail], a.actor ≠ 0) ∧
      ((run_catches db0 [attemptFail]).2.countP
        (fun o => wonSlot o == some 1)) ≤ 1) ∧
    ((db0.drops.find? (fun e => e.id == 1)).isSome ∧
      ((run_locked db0 [⟨7, ⟨1, 1, 10, 100, 5, 0⟩, 0, 6⟩]).2.countP
        (fun o => wonSlot o == some 1)) ≤ 1) :=
  ⟨⟨by decide, C1_at_most_one_win.1 db0 [attemptFail] 1 (by decide)⟩,
   ⟨by decide, C1_at_most_one_win.2 db0 [⟨7, ⟨1, 1, 10, 100, 5, 0⟩, 0, 6⟩] 1
      (by decide) (by decide)⟩⟩

/-- C1 counterexample: a single claimant attempts while the slot is Open
(rarity-1 card) and draws 39/40, above the success chance 37/40: the
attempt fails, nobody receives `Won`, and the slot stays open — refuting
"exactly one attempt receives the Won outcome ... no zero-wins when at
least one claimant attempts while the slot is Open". -/
theorem C1_counterexample :
    caughtOf db0 1 = some 0 ∧
    (run_catches db0 [attemptFail]).2 = [.failed] ∧
    (run_catches db0 [attemptFail]).2.countP
      (fun o => wonSlot o == some 1) = 0 ∧
    caughtOf (run_catches db0 [attemptFail]).1 1 = some 0 := by
  have hres : catch_resolve (ensure_user db0 7 "u7") 10 none none =
      some ⟨1, 1, 10, 100, 5, 0⟩ := by decide
  have hopenD : (caughtOf (ensure_user db0 7 "u7") 1).getD 0 = 0 := by decide
  have hcard : find_card (ensure_user db0 7 "u7").cards 1 = some cardA := by
    decide
  have hu : ¬ ((39 : ℚ)/40 ≤ success_chance cardA.rarity) := by
    norm_num [success_chance, cardA]
  have hcmd : catch_cmd db0 attemptFail = (ensure_user db0 7 "u7", .failed) := by
    rw [catch_cmd_eq_locked (a := attemptFail) hres]
    exact catch_locked_failed hopenD hcard hu
  have hrun : run_catches db0 [attemptFail] =
      (ensure_user db0 7 "u7", [.failed]) := by
    rw [run_catches_cons, hcmd]
    rfl
  refine ⟨by decide, ?_, ?_, ?_⟩
  · rw [hrun]
  · rw [hrun]
    rfl
  · rw [hrun]
    decide

/-- C3 (corrected): the ledger has no duplicate-reward guard at all:
`change_balance` unconditionally credits and appends another
`transactions` row on every call — there is no `DuplicateReward`, and
ledger rows carry only a free-text note, not a slot reference.  A
claimed slot yields at most one reward credit only because `catch_cmd`
credits solely on the `caught_by` 0-to-winner transition, which happens
at most once per slot. -/
theorem C3_no_duplicate_guard (db : DB) (uid : Nat) (amt : Int)
    (note : String) (t1 t2 : Nat) (w : UserRow)
    (hu : db.users.find? (fun x => x.id == uid) = some w) :
    (change_balance (change_balance db uid amt note t1)
        uid amt note t2).transactions =
      db.transactions ++ [⟨uid, amt, note, t1⟩, ⟨uid, amt, note, t2⟩] ∧
    balanceOf (change_balance (change_balance db uid amt note t1)
        uid amt note t2) uid = some (w.balance + amt + amt) := by
  constructor
  · simp [change_balance]
  · rw [balanceOf_change_balance, balanceOf_change_balance]
    have hb : balanceOf db uid = some w.balance := by
      simp [balanceOf, hu]
    rw [hb]
    rfl

/-- Witness for C3's amended theorem at a concrete double credit. -/
theorem C3_no_duplicate_guard_witness :
    dbUser.users.find? (fun x => x.id == 7) = some ⟨7, "u7", 100, none⟩ ∧
    ((change_balance (change_balance dbUser 7 60 "caught card A" 6)
        7 60 "caught card A" 7).transactions =
      dbUser.transactions ++ [⟨7, 60, "caught card A", 6⟩,
        ⟨7, 60, "caught card A", 7⟩] ∧
     balanceOf (change_balance (change_balance dbUser 7 60 "caught card A" 6)
        7 60 "caught card A" 7) 7 = some (100 + 60 + 60)) :=
  ⟨by decide, C3_no_duplicate_guard dbUser 7 60 "caught card A" 6 7
    ⟨7, "u7", 100, none⟩ (by decide)⟩

/-- C3 counterexample: a second credit call with the same claim-reward
note is not rejected — the balance is credited a second time and a
second ledger row appears, refuting "a second credit call for the same
slot reference is rejected with DuplicateReward". -/
theorem C3_counterexample :
    balanceOf (change_balance (change_balance dbUser 7 60 "caught card A" 6)
        7 60 "caught card A" 7) 7 = some 220 ∧
    ((change_balance (change_balance dbUser 7 60 "caught card A" 6)
        7 60 "caught card A" 7).transactions.countP
      (fun tx => tx.note == "caught card A")) = 2 := by
  refine ⟨by decide, by decide⟩

/-- C4 (confirmed): success of a claim against an Open slot is gated on
the roll `u ≤ max(0.2, 1 - 0.075 * rarity)`: for rarity at least 1 there
is a draw under which the sole claimant does not win and the slot stays
open (`caught_by` stays 0), while for rarity 0 the chance is 1 and a
sole claimant always wins. -/
theorem C4_roll_gates_win (db : DB) (actor : Nat) (un : String) (chat : Int)
    (reply : Option Nat) (args : Option String) (now : Nat) (t : DropRow)
    (card : Card)
    (hres : catch_resolve (ensure_user db actor un) chat reply args = some t)
    (hopen : caughtOf db t.id = some 0)
    (hcard : find_card db.cards t.card_id = some card) :
    (1 ≤ card.rarity → ∃ u : ℚ, 0 ≤ u ∧ u < 1 ∧
      (catch_cmd db ⟨actor, un, chat, reply, args, u, now⟩).2 = .failed ∧
      caughtOf (catch_cmd db ⟨actor, un, chat, reply, args, u, now⟩).1 t.id =
        some 0) ∧
    (card.rarity = 0 → ∀ u : ℚ, 0 ≤ u → u < 1 →
      (catch_cmd db ⟨actor, un, chat, reply, args, u, now⟩).2 =
        .won t.id card.name (reward_for 0)) := by
  have hopen1 : caughtOf (ensure_user db actor un) t.id = some 0 := by
    rw [caughtOf_ensure]
    exact hopen
  have hopenD : (caughtOf (ensure_user db actor un) t.id).getD 0 = 0 := by
    rw [hopen1]
    rfl
  have hcard1 : find_card (ensure_user db actor un).cards t.card_id =
      some card := by
    rw [ensure_user_cards]
    exact hcard
  constructor
  · intro hr
    have hclt : success_chance card.rarity < 1 := success_chance_lt_one hr
    have hcpos : 0 < success_chance card.rarity := success_chance_pos _
    refine ⟨(success_chance card.rarity + 1) / 2, by linarith, by linarith,
      ?_, ?_⟩
    all_goals
      have hu : ¬ ((success_chance card.rarity + 1) / 2 ≤
          success_chance card.rarity) := by
        intro hle
        linarith
    all_goals
      have heq := catch_cmd_eq_locked
        (a := ⟨actor, un, chat, reply, args,
          (success_chance card.rarity + 1) / 2, now⟩) hres
    all_goals
      have hlock := @catch_locked_failed (ensure_user db actor un) actor t
        ((success_chance card.rarity + 1) / 2) now card hopenD hcard1 hu
    · rw [heq, hlock]
    · rw [heq, hlock]
      exact hopen1
  · intro hr0 u hu0 hu1
    have hle : u ≤ success_chance card.rarity := by
      rw [hr0, success_chance_zero]
      exact le_of_lt hu1
    have heq := catch_cmd_eq_locked
      (a := ⟨actor, un, chat, reply, args, u, now⟩) hres
    have hlock := @catch_locked_win (ensure_user db actor un) actor t u now
      card hopenD hcard1 hle
    rw [heq, hlock, hr0]

/-- Witness for C4 on the rarity-1 open drop of `db0`. -/
theorem C4_roll_gates_win_witness :
    ∃ u : ℚ, 0 ≤ u ∧ u < 1 ∧
      (catch_cmd db0 ⟨7, "u7", 10, none, none, u, 6⟩).2 = .failed ∧
      caughtOf (catch_cmd db0 ⟨7, "u7", 10, none, none, u, 6⟩).1 1 = some 0 :=
  (C4_roll_gates_win db0 7 "u7" 10 none none 6 ⟨1, 1, 10, 100, 5, 0⟩ cardA
    (by decide) (by decide) (by decide)).1 (by decide)

/-- C7 (confirmed): a claim attempt never wins a slot that is already
claimed (`caught_by` non-zero), never changes its recorded claimant, and
when the attempt's lookup targets that very slot the outcome is the
"Too late" rejection. -/
theorem C7_terminal_slot_immutable (db : DB) (a : Attempt) (s v : Nat)
    (hv : caughtOf db s = some v) (hv0 : v ≠ 0) :
    wonSlot (catch_cmd db a).2 ≠ some s ∧
    caughtOf (catch_cmd db a).1 s = some v ∧
    (∀ t, catch_resolve (ensure_user db a.actor a.username) a.chat a.reply
        a.argsName = some t → t.id = s → (catch_cmd db a).2 = .tooLate) := by
  refine ⟨?_, ?_, ?_⟩
  · exact stepNoWinClaimed (Prod.mk.eta).symm hv hv0
  · exact stepPreserve (Prod.mk.eta).symm hv hv0
  · intro t hres hts
    rw [catch_cmd_eq_locked hres]
    have hv1 : caughtOf (ensure_user db a.actor a.username) t.id = some v := by
      rw [caughtOf_ensure, hts]
      exact hv
    rw [catch_locked_claimed hv1 hv0]

/-- Witness for C7 on a reply-mode attempt against an already claimed
drop. -/
theorem C7_terminal_slot_immutable_witness :
    caughtOf dbClaimed 1 = some 7 ∧
    (wonSlot (catch_cmd dbClaimed attemptReply).2 ≠ some 1 ∧
     caughtOf (catch_cmd dbClaimed attemptReply).1 1 = some 7 ∧
     (∀ t, catch_resolve (ensure_user dbClaimed 8 "u8") 10 (some 100) none =
        some t → t.id = 1 → (catch_cmd dbClaimed attemptReply).2 = .tooLate)) :=
  ⟨by decide,
   C7_terminal_slot_immutable dbClaimed attemptReply 1 7 (by decide) (by decide)⟩

/-- C9 (confirmed): claim lookup has exactly the two modes of the source:
a reply handle targets the drop published with that message id in that
chat; with no handle the most recent uncaught drop of the chat is
targeted, optionally filtered by (lowercased) card name; and when
resolution finds nothing the outcome is the "no available drop"
rejection. -/
theorem C9_two_lookup_modes :
    (∀ (db : DB) (chat : Int) (args : Option String) (mid : Nat)
        (d : DropRow), lookup_reply db.drops chat mid = some d →
      catch_resolve db chat (some mid) args = some d ∧
      d ∈ db.drops ∧ d.chat_id = chat ∧ d.message_id = mid) ∧
    (∀ (db : DB) (chat : Int) (args : Option String) (d : DropRow),
      catch_resolve db chat none args = some d →
      d ∈ db.drops ∧ d.chat_id = chat ∧ d.caught_by = 0 ∧
      (∀ name, args = some name →
        (∃ c, find_card db.cards d.card_id = some c ∧
          c.name.toLower = name.toLower) ∧
        ∀ e ∈ db.drops, e.chat_id = chat → e.caught_by = 0 →
          (∃ c, find_card db.cards e.card_id = some c ∧
            c.name.toLower = name.toLower) →
          e.dropped_at ≤ d.dropped_at) ∧
      (args = none → ∀ e ∈ db.drops, e.chat_id = chat → e.caught_by = 0 →
        e.dropped_at ≤ d.dropped_at)) ∧
    (∀ (db : DB) (a : Attempt),
      catch_resolve (ensure_user db a.actor a.username) a.chat a.reply
        a.argsName = none →
      (catch_cmd db a).2 = .noDrop) := by
  refine ⟨?_, ?_, ?_⟩
  · intro db chat args mid d h
    have hspec := lookup_reply_spec h
    refine ⟨?_, hspec⟩
    show (match lookup_reply db.drops chat mid with
      | some t => some t
      | none => match args with
        | some name => lookup_by_name db chat name
        | none => lookup_last_uncaught db.drops chat) = some d
    rw [h]
  · intro db chat args d h
    cases args with
    | none =>
      have h2 : lookup_last_uncaught db.drops chat = some d := h
      have hspec := lookup_last_uncaught_spec h2
      refine ⟨hspec.1, hspec.2.1, hspec.2.2.1, ?_, ?_⟩
      · intro name hn
        exact Option.noConfusion hn
      · intro hargs e he hchat hcb
        exact hspec.2.2.2 e he hchat hcb
    | some name =>
      have h2 : lookup_by_name db chat name = some d := h
      have hspec := lookup_by_name_spec h2
      refine ⟨hspec.1, hspec.2.1, hspec.2.2.1, ?_, ?_⟩
      · intro name2 hn
        injection hn with hn2
        subst hn2
        exact ⟨hspec.2.2.2.1, hspec.2.2.2.2⟩
      · intro hargs
        exact Option.noConfusion hargs
  · intro db a h
    rw [catch_cmd_eq_noDrop h]

/-- Witness for C9: the reply mode finds the claimed drop by message id,
the implicit mode finds the open drop, and an empty database resolves to
the no-drop outcome. -/
theorem C9_two_lookup_modes_witness :
    catch_resolve dbClaimed 10 (some 100) none =
      some ⟨1, 1, 10, 100, 5, 7⟩ ∧
    (⟨1, 1, 10, 100, 5, 0⟩ : DropRow) ∈ db0.drops ∧
    (catch_cmd dbEmpty attemptFail).2 = .noDrop :=
  ⟨(C9_two_lookup_modes.1 dbClaimed 10 none 100 ⟨1, 1, 10, 100, 5, 7⟩
      (by decide)).1,
   (C9_two_lookup_modes.2.1 db0 10 none ⟨1, 1, 10, 100, 5, 0⟩ (by decide)).1,
   C9_two_lookup_modes.2.2 dbEmpty attemptFail (by decide)⟩

end CardBot
